import Mathlib

/-
Verification development for the RecipeManager repository.

The repository ships a React frontend (upload, auth, recipe views) together
with deployment files; the PDF extraction pipeline described in the design
document runs in the backend service, whose source is not part of this tree.
Frontend handlers (RecipeUpload.js, Register.js) are embedded directly from
their source.  The extraction pipeline (text extractor, line normalizer,
section segmenter, ingredient line parser, instruction step splitter,
orchestrator) is modelled from the design document, faithful to its words.
-/

namespace RecipeManager

/-! ## Data model (spec section 3) -/

/-- Modelled from the spec: a normalized line of text plus its source page
index and a rough font-size hint used for title detection (section 3,
LogicalLine). -/
structure LogicalLine where
  text : String
  page : Nat
  fontHint : Option Nat
deriving DecidableEq, Repr

/-- Modelled from the spec: the section tags of the segmenter
(section 3, Section). -/
inductive SectionTag
  | title
  | ingredients
  | instructions
  | notes
  | nutrition
  | unknown
deriving DecidableEq, Repr

/-- Modelled from the spec: a tag plus the contiguous ordered run of
LogicalLines assigned to it (section 3, Section). -/
structure Section where
  tag : SectionTag
  lines : List LogicalLine
deriving DecidableEq, Repr

/-- Modelled from the spec: the parsed form of one ingredient line
(section 3, ParsedIngredient).  The group-label flag comes from the
sub-header edge case of section 4.4. -/
structure ParsedIngredient where
  amount : Option ℚ
  amountRange : Option (ℚ × ℚ)
  unit : Option String
  name : String
  note : Option String
  isHeader : Bool
deriving DecidableEq, Repr

/-- Modelled from the spec: one instruction step (section 3,
InstructionStep). -/
structure InstructionStep where
  index : Nat
  text : String
deriving DecidableEq, Repr

/-- Modelled from the spec: optional nutrition figures (section 3,
ExtractedRecipe.nutrition). -/
structure Nutrition where
  calories : Option ℚ
  protein : Option ℚ
  carbs : Option ℚ
  fat : Option ℚ
deriving DecidableEq, Repr

/-- Modelled from the spec: per-field confidence tag (section 9, design
note on tagged confidence variants). -/
inductive Confidence
  | ok
  | defaulted
  | failed
deriving DecidableEq, Repr

/-- Modelled from the spec: the assembled extraction result
(section 3, ExtractedRecipe). -/
structure ExtractedRecipe where
  title : String
  ingredients : List ParsedIngredient
  instructions : List InstructionStep
  nutrition : Option Nutrition
  confTitle : Confidence
  confIngredients : Confidence
  confInstructions : Confidence
  confNutrition : Confidence
deriving DecidableEq, Repr

/-- Modelled from the spec: the only error crossing the core boundary
(section 7, taxonomy). -/
inductive PipelineError
  | unreadablePdf
deriving DecidableEq, Repr

/-! ## Character-list string helpers

Core String functions such as trim and splitOn are implemented over byte
positions with well-founded recursion; the structurally recursive
char-list versions below compute by kernel reduction, which concrete
evaluations in the theorems rely on. -/

/-- Lowercase every character of a string. -/
def lowerStr (s : String) : String := String.mk (s.data.map Char.toLower)

/-- Trim leading and trailing whitespace from a character list. -/
def trimC (cs : List Char) : List Char :=
  ((cs.dropWhile Char.isWhitespace).reverse.dropWhile Char.isWhitespace).reverse

/-- Trim leading and trailing whitespace from a string. -/
def trimS (s : String) : String := String.mk (trimC s.data)

/-- Split a list at every element satisfying the predicate, keeping empty
segments. -/
def splitWhenL (p : α → Bool) : List α → List (List α)
  | [] => [[]]
  | c :: cs =>
    let r := splitWhenL p cs
    if p c then [] :: r
    else
      match r with
      | [] => [[c]]
      | g :: gs => (c :: g) :: gs

/-- True when the last character of the string is the given one. -/
def lastIs (s : String) (c : Char) : Bool := s.data.getLast? = some c

/-! ## Ingredient Line Parser (spec section 4.4) -/

/-- Numeric value of a digit character. -/
def digitVal (c : Char) : Nat := c.toNat - 48

/-- Parse a nonempty all-digit character list as a natural number. -/
def parseNatChars (cs : List Char) : Option Nat :=
  if cs ≠ [] ∧ cs.all Char.isDigit then
    some (cs.foldl (fun a c => a * 10 + digitVal c) 0)
  else none

/-- Modelled from the spec: vulgar fraction characters accepted as
quantities (section 4.4 step 1). -/
def vulgarVal (c : Char) : Option ℚ :=
  if c = '½' then some (mkRat 1 2)
  else if c = '⅓' then some (mkRat 1 3)
  else if c = '⅔' then some (mkRat 2 3)
  else if c = '¼' then some (mkRat 1 4)
  else if c = '¾' then some (mkRat 3 4)
  else if c = '⅛' then some (mkRat 1 8)
  else none

/-- Split a character list at the first occurrence of a separator. -/
def splitOnceChar (sep : Char) : List Char → Option (List Char × List Char)
  | [] => none
  | c :: cs =>
    if c = sep then some ([], cs)
    else match splitOnceChar sep cs with
      | some (a, b) => some (c :: a, b)
      | none => none

/-- Modelled from the spec: parse one token as a numeric quantity —
integer, decimal with either dot or comma as separator, vulgar fraction,
or simple fraction such as 1/2 (section 4.4 step 1). -/
def parseQty (t : String) : Option ℚ :=
  let cs := t.data
  match parseNatChars cs with
  | some n => some (mkRat n 1)
  | none =>
    match cs with
    | [c] => vulgarVal c
    | _ =>
      match splitOnceChar '/' cs with
      | some (a, b) =>
        match parseNatChars a, parseNatChars b with
        | some x, some y => if y = 0 then none else some (mkRat x y)
        | _, _ => none
      | none =>
        let dec := match splitOnceChar '.' cs with
          | some ab => some ab
          | none => splitOnceChar ',' cs
        match dec with
        | some (a, b) =>
          match parseNatChars a, parseNatChars b with
          | some x, some y =>
            some (mkRat (x * 10 ^ b.length + y) (10 ^ b.length))
          | _, _ => none
        | none => none

/-- Modelled from the spec: parse a numeric range token such as 2-3
(section 4.4 step 1, amount_range). -/
def parseRange (t : String) : Option (ℚ × ℚ) :=
  match splitOnceChar '-' t.toList with
  | some (a, b) =>
    match parseQty (String.mk a), parseQty (String.mk b) with
    | some x, some y => some (x, y)
    | _, _ => none
  | none => none

/-- Modelled from the spec: canonical unit vocabulary mapping surface
forms, abbreviations and locale variants to a canonical unit token
(section 4.4 step 2, glossary entry on canonical units). -/
def unitVocab : List (String × String) :=
  [("g", "g"), ("gr", "g"), ("gramm", "g"),
   ("kg", "kg"), ("ml", "ml"), ("l", "l"), ("liter", "l"),
   ("tl", "TL"), ("teel.", "TL"), ("teelöffel", "TL"),
   ("teaspoon", "TL"), ("tsp", "TL"),
   ("el", "EL"), ("essl.", "EL"), ("esslöffel", "EL"),
   ("tablespoon", "EL"), ("tbsp", "EL"),
   ("prise", "Prise"), ("stück", "Stück"), ("tasse", "Tasse"),
   ("cup", "Tasse"), ("bund", "Bund"), ("dose", "Dose"),
   ("pck.", "Pck."), ("packung", "Pck.")]

/-- Canonical form of a unit token, when the token is in the vocabulary. -/
def canonUnit (tok : String) : Option String :=
  (unitVocab.find? (fun p => p.1 = lowerStr tok)).map (·.2)

/-- Modelled from the spec: connector words trimmed from the front of an
ingredient name (section 4.4 step 3). -/
def connectorWords : List String := ["of", "von", "an"]

/-- Drop leading connector words from a token list. -/
def dropConnectors : List String → List String
  | [] => []
  | t :: ts => if connectorWords.contains (lowerStr t) then dropConnectors ts else t :: ts

/-- Join tokens with single spaces. -/
def joinSpace : List String → String
  | [] => ""
  | [t] => t
  | t :: ts => t ++ " " ++ joinSpace ts

/-- Split a token of the form digits-then-letters (such as 200g) into the
numeric part and the letter part; other tokens stay whole. -/
def splitAttached (t : String) : List String :=
  let cs := t.toList
  let ds := cs.takeWhile Char.isDigit
  let rest := cs.dropWhile Char.isDigit
  if ds ≠ [] ∧ rest ≠ [] ∧ rest.all Char.isAlpha then
    [String.mk ds, String.mk rest]
  else [t]

/-- Whitespace-tokenize a line, splitting attached quantity-unit tokens. -/
def tokenize (s : String) : List String :=
  (((splitWhenL Char.isWhitespace s.data).map String.mk).filter (· ≠ "")).flatMap
    splitAttached

/-- Modelled from the spec: text in parentheses anywhere in the line is
extracted as the note and removed from the name (section 4.4 step 4).
Returns the note text and the line with the parenthesized part removed. -/
def extractParens (s : String) : String × String :=
  match splitOnceChar '(' s.data with
  | some (a, b) =>
    (match splitOnceChar ')' b with
     | some (inner, c) =>
       (String.mk (trimC inner), String.mk (trimC (a ++ [' '] ++ c)))
     | none => ("", s))
  | none => ("", s)

/-- True when the string contains a digit character. -/
def containsDigit (s : String) : Bool := s.data.any Char.isDigit

/-- Assemble a ParsedIngredient from the parsed quantity, the remaining
tokens, and the note: match a unit token, trim connector words, join the
rest as the name (section 4.4 steps 2 and 3). -/
def finishIngredient (amt : Option ℚ) (rng : Option (ℚ × ℚ))
    (toks : List String) (note : Option String) : ParsedIngredient :=
  let unitRest : Option String × List String :=
    match toks with
    | [] => (none, [])
    | u :: us =>
      match canonUnit u with
      | some cu => (some cu, us)
      | none => (none, u :: us)
  { amount := amt, amountRange := rng, unit := unitRest.1,
    name := joinSpace (dropConnectors unitRest.2), note := note,
    isHeader := false }

/-- Modelled from the spec: the heuristic core of the ingredient line
parser (section 4.4, algorithm steps 1-4 and the sub-header edge case).
May produce an empty name on degenerate input; totality is restored by
the wrapper below. -/
def parseIngredientCore (line : String) : ParsedIngredient :=
  let pn := extractParens line
  let note := if pn.1 = "" then none else some pn.1
  let rest := pn.2
  if lastIs (trimS rest) ':' ∧ ¬ containsDigit rest then
    { amount := none, amountRange := none, unit := none,
      name := String.mk (trimC (trimC rest.data).dropLast), note := note,
      isHeader := true }
  else
    match tokenize rest with
    | [] =>
      { amount := none, amountRange := none, unit := none,
        name := "", note := note, isHeader := false }
    | t :: ts =>
      match parseRange t with
      | some (a, b) => finishIngredient (some a) (some (a, b)) ts note
      | none =>
        match parseQty t with
        | some q =>
          (match ts with
           | r :: ts2 =>
             (match parseRange r with
              | some (a, b) => finishIngredient (some q) (some (a, b)) ts2 note
              | none => finishIngredient (some q) none (r :: ts2) note)
           | [] => finishIngredient (some q) none [] note)
        | none =>
          { amount := none, amountRange := none, unit := none,
            name := joinSpace (t :: ts), note := note, isHeader := false }

/-- Modelled from the spec: the total Ingredient Line Parser — never
fails; worst case returns the original line text as the name with amount
absent (section 4.4 contract, section 3 ParsedIngredient invariant). -/
def parseIngredient (line : String) : ParsedIngredient :=
  if (parseIngredientCore line).name = "" then
    { amount := none, amountRange := none, unit := none,
      name := line, note := none, isHeader := false }
  else parseIngredientCore line

/-! ## Section Segmenter (spec section 4.3) -/

/-- Modelled from the spec: the configurable lexicon of section-header
keywords in the target locale (section 4.3 step 2, section 6
configuration). -/
def sectionLexicon : List (String × SectionTag) :=
  [("zutaten", SectionTag.ingredients), ("ingredients", SectionTag.ingredients),
   ("zubereitung", SectionTag.instructions), ("anleitung", SectionTag.instructions),
   ("instructions", SectionTag.instructions),
   ("notizen", SectionTag.notes), ("notes", SectionTag.notes),
   ("nährwerte", SectionTag.nutrition), ("nutrition", SectionTag.nutrition)]

/-- Normalized key of a line for anchor matching: trimmed, lowercased,
with an optional trailing colon removed. -/
def anchorKey (s : String) : String :=
  let k := trimC (lowerStr s).data
  String.mk (if k.getLast? = some ':' then trimC k.dropLast else k)

/-- The section tag anchored by a line, when the line is a header keyword. -/
def anchorTag (l : LogicalLine) : Option SectionTag :=
  (sectionLexicon.find? (fun p => p.1 = anchorKey l.text)).map (·.2)

/-- Page index of the first line (the first page of the document). -/
def firstPageOf (lines : List LogicalLine) : Nat :=
  match lines with
  | [] => 0
  | l :: _ => l.page

/-- Modelled from the spec: index of the title candidate — the first
non-blank line with the largest font-size hint on the first page, or the
first non-blank line when no font hint is available (section 4.3 step 1). -/
def titleIndex (lines : List LogicalLine) : Option Nat :=
  let fp := firstPageOf lines
  let cands := lines.enum.filter (fun p => p.2.page = fp ∧ trimC p.2.text.data ≠ [])
  let withFont := cands.filter (fun p => p.2.fontHint.isSome)
  match withFont with
  | [] => cands.head?.map (·.1)
  | _ =>
    let m := (withFont.map (fun p => p.2.fontHint.getD 0)).foldl max 0
    (withFont.filter (fun p => p.2.fontHint.getD 0 = m)).head?.map (·.1)

/-- Modelled from the spec: the keyword-anchor labeling pass — an anchor
line starts a labeled section and the label persists until the next anchor
or end of document; the title candidate line is labeled TITLE; everything
before any anchor that is not the title is UNKNOWN (section 4.3 steps
1, 2 and 4). -/
def labelPass (ti : Option Nat) : Nat → SectionTag → List LogicalLine → List SectionTag
  | _, _, [] => []
  | i, cur, l :: ls =>
    match anchorTag l with
    | some t => t :: labelPass ti (i + 1) t ls
    | none =>
      (if some i = ti ∧ cur = SectionTag.unknown then SectionTag.title else cur)
        :: labelPass ti (i + 1) cur ls

/-- True when a line anchors an ingredients or instructions section. -/
def isContentAnchor (l : LogicalLine) : Bool :=
  match anchorTag l with
  | some SectionTag.ingredients => true
  | some SectionTag.instructions => true
  | _ => false

/-- True when any line anchors an ingredients or instructions section. -/
def hasContentAnchor (lines : List LogicalLine) : Bool :=
  lines.any isContentAnchor

/-- True when the trimmed line starts with a numeral (digit or vulgar
fraction). -/
def startsWithNumeral (s : String) : Bool :=
  match trimC s.data with
  | c :: _ => c.isDigit || (vulgarVal c).isSome
  | [] => false

/-- True when the first token of the line is a known measurement unit. -/
def startsWithUnitTok (s : String) : Bool :=
  match tokenize s with
  | t :: _ => (canonUnit t).isSome
  | [] => false

/-- Modelled from the spec: length threshold below which a line counts as
short for the structural heuristic (section 4.3 step 3). -/
def shortLineLen : Nat := 40

/-- Modelled from the spec: length threshold above which a line counts as
long prose for the structural heuristic (section 4.3 step 3). -/
def proseLineLen : Nat := 60

/-- A short line starting with a numeral or a measurement-unit token. -/
def ingredientShaped (l : LogicalLine) : Bool :=
  decide (l.text.length ≤ shortLineLen)
    && (startsWithNumeral l.text || startsWithUnitTok l.text)

/-- A long-prose line. -/
def proseShaped (l : LogicalLine) : Bool :=
  decide (proseLineLen < l.text.length)

/-- State of the structural-fallback scan: before the ingredient run,
inside it, between it and the prose run, inside the prose run, after. -/
inductive StructState
  | preIng
  | inIng
  | preInstr
  | inInstr
  | post
deriving DecidableEq, Repr

/-- Modelled from the spec: the unanchored structural fallback — a
contiguous run of short numeral-or-unit-led lines is INGREDIENTS and the
first long-prose run following it is INSTRUCTIONS; lines already labeled
by a keyword anchor keep their label (section 4.3 step 3 and the
tie-break rule). -/
def structLabel : StructState → List (SectionTag × LogicalLine) → List SectionTag
  | _, [] => []
  | s, (tag, l) :: rest =>
    if tag ≠ SectionTag.unknown then tag :: structLabel s rest
    else
      match s with
      | StructState.preIng =>
        if ingredientShaped l then SectionTag.ingredients :: structLabel StructState.inIng rest
        else SectionTag.unknown :: structLabel StructState.preIng rest
      | StructState.inIng =>
        if ingredientShaped l then SectionTag.ingredients :: structLabel StructState.inIng rest
        else if proseShaped l then SectionTag.instructions :: structLabel StructState.inInstr rest
        else SectionTag.unknown :: structLabel StructState.preInstr rest
      | StructState.preInstr =>
        if proseShaped l then SectionTag.instructions :: structLabel StructState.inInstr rest
        else SectionTag.unknown :: structLabel StructState.preInstr rest
      | StructState.inInstr =>
        if proseShaped l then SectionTag.instructions :: structLabel StructState.inInstr rest
        else SectionTag.unknown :: structLabel StructState.post rest
      | StructState.post => SectionTag.unknown :: structLabel StructState.post rest

/-- Modelled from the spec: one section label per input line — the
keyword-anchor pass, followed by the structural fallback exactly when no
ingredients or instructions anchor was found (section 4.3). -/
def segmentLabels (lines : List LogicalLine) : List SectionTag :=
  let base := labelPass (titleIndex lines) 0 SectionTag.unknown lines
  if hasContentAnchor lines then base
  else structLabel StructState.preIng (base.zip lines)

/-- Group a labeled line sequence into contiguous same-label sections. -/
def groupPairs : List (SectionTag × LogicalLine) → List Section
  | [] => []
  | (t, l) :: rest =>
    match groupPairs rest with
    | [] => [⟨t, [l]⟩]
    | s :: ss => if s.tag = t then ⟨t, l :: s.lines⟩ :: ss else ⟨t, [l]⟩ :: s :: ss

/-- Modelled from the spec: the Section Segmenter — labels every line and
groups contiguous equal labels into Sections covering the whole input
(section 4.3 contract). -/
def segmentSections (lines : List LogicalLine) : List Section :=
  groupPairs ((segmentLabels lines).zip lines)

/-! ## Instruction Step Splitter (spec section 4.5) -/

/-- Modelled from the spec: split a leading ordinal marker — numerals
followed by a dot or closing parenthesis — from an instruction line
(section 4.5). -/
def ordinalSplit (s : String) : Option (Nat × String) :=
  let cs := trimC s.data
  let ds := cs.takeWhile Char.isDigit
  let rest := cs.dropWhile Char.isDigit
  match parseNatChars ds, rest with
  | some n, c :: rs =>
    if c = '.' ∨ c = ')' then some (n, String.mk (trimC rs)) else none
  | _, _ => none

/-- True when every line carries an explicit ordinal marker and the
markers form a strictly increasing sequence. -/
def markersIncreasing : Nat → List LogicalLine → Bool
  | _, [] => true
  | prev, l :: ls =>
    match ordinalSplit l.text with
    | some (n, _) => decide (prev < n) && markersIncreasing n ls
    | none => false

/-- Text of one step with any ordinal marker stripped. -/
def stepText (l : LogicalLine) : String :=
  match ordinalSplit l.text with
  | some (_, t) => t
  | none => l.text

/-- Modelled from the spec: the step texts — one step per explicit ordinal
marker with the marker stripped when the non-blank lines carry a strictly
increasing marker sequence, otherwise one step per non-blank line
(section 4.5). -/
def stepTexts (lines : List LogicalLine) : List String :=
  let nb := lines.filter (fun l => trimC l.text.data ≠ [])
  if markersIncreasing 0 nb then nb.map stepText else nb.map (·.text)

/-- Modelled from the spec: the Instruction Step Splitter — steps are
numbered sequentially from 1 (section 4.5, section 3 InstructionStep). -/
def splitSteps (lines : List LogicalLine) : List InstructionStep :=
  (stepTexts lines).enum.map (fun p => ⟨p.1 + 1, p.2⟩)

/-! ## Text Extractor and Line Normalizer (spec sections 4.1, 4.2) -/

/-- Modelled from the spec: a request-scoped immutable byte buffer
(section 3, RawDocument). -/
def RawDocument := List Nat

/-- Leading bytes of a readable PDF stream. -/
def pdfMagic : List Nat := [37, 80, 68, 70]

/-- Decode a byte sequence as text. -/
def bytesToString (bs : List Nat) : String := String.mk (bs.map Char.ofNat)

/-- Split a byte list on a separator byte. -/
def splitOnByte (sep : Nat) (bs : List Nat) : List (List Nat) :=
  splitWhenL (fun b => b == sep) bs

/-- Modelled from the spec: the Text Extractor — yields (page_index,
raw_text_block) pairs in document order, and fails with UnreadablePdf
when the stream is not a valid PDF or has no extractable text layer
(section 4.1 contract).  In this byte-level model a document is readable
when it starts with the PDF magic bytes and its payload holds at least
one printable non-blank character; pages are separated by form-feed
bytes, and no font metadata is available from raw bytes, so font hints
are absent. -/
def textExtract (doc : RawDocument) : Except PipelineError (List (Nat × String)) :=
  let payload := List.drop 4 doc
  if List.take 4 doc = pdfMagic ∧ (payload.any fun b => decide (32 < b)) = true then
    Except.ok ((splitOnByte 12 payload).enum.map (fun p => (p.1, bytesToString p.2)))
  else Except.error PipelineError.unreadablePdf

/-- Collapse runs of whitespace to single spaces. -/
def collapseWs (s : String) : String :=
  joinSpace (((splitWhenL Char.isWhitespace s.data).map String.mk).filter (· ≠ ""))

/-- Raw logical lines of the extracted page blocks: one per newline-
separated line, whitespace collapsed. -/
def rawLines (blocks : List (Nat × String)) : List LogicalLine :=
  blocks.flatMap (fun pb =>
    ((splitWhenL (fun c => c == '\n') pb.2.data).map String.mk).map
      (fun ln => ⟨collapseWs ln, pb.1, none⟩))

/-- Deduplicate a list of page indices. -/
def dedupNat : List Nat → List Nat
  | [] => []
  | n :: ns =>
    let r := dedupNat ns
    if r.contains n then r else n :: r

/-- Distinct pages on which a given line text occurs. -/
def pagesWithText (ls : List LogicalLine) (t : String) : List Nat :=
  dedupNat ((ls.filter (fun m => m.text = t)).map LogicalLine.page)

/-- Modelled from the spec: drop recurring boilerplate — line text
identical across at least three pages is treated as a header or footer
(section 4.2). -/
def stripBoilerplate (ls : List LogicalLine) : List LogicalLine :=
  ls.filter (fun l => decide ((pagesWithText ls l.text).length < 3))

/-- True when the line ends in sentence-terminal punctuation. -/
def endsSentence (s : String) : Bool :=
  match s.data.getLast? with
  | some c => ['.', '!', '?', ':', ';'].contains c
  | none => false

/-- True when the line starts with a lowercase letter. -/
def startsLower (s : String) : Bool :=
  match s.data with
  | c :: _ => c.isLower
  | [] => false

/-- Fuel-bounded merge loop; the fuel is an upper bound on the number of
lines and each step consumes at least one line. -/
def mergeWrappedAux : Nat → List LogicalLine → List LogicalLine
  | 0, ls => ls
  | _ + 1, [] => []
  | _ + 1, [l] => [l]
  | fuel + 1, a :: b :: rest =>
    if ¬ endsSentence a.text ∧ startsLower b.text then
      mergeWrappedAux fuel (⟨a.text ++ " " ++ b.text, a.page, a.fontHint⟩ :: rest)
    else a :: mergeWrappedAux fuel (b :: rest)

/-- Modelled from the spec: join lines broken mid-sentence by layout
wrapping — a line not ending in sentence-terminal punctuation followed by
a line starting lowercase is merged (section 4.2). -/
def mergeWrapped (ls : List LogicalLine) : List LogicalLine :=
  mergeWrappedAux ls.length ls

/-- Modelled from the spec: the Line Normalizer — strips boilerplate,
joins wrapped lines, collapses whitespace and drops blank lines
(section 4.2 contract). -/
def normalizeLines (blocks : List (Nat × String)) : List LogicalLine :=
  (mergeWrapped (stripBoilerplate (rawLines blocks))).filter (fun l => l.text ≠ "")

/-! ## Extraction Orchestrator (spec section 4.6) -/

/-- All lines of the sections carrying a given tag, in order. -/
def sectionLines (secs : List Section) (t : SectionTag) : List LogicalLine :=
  (secs.filter (fun s => s.tag = t)).flatMap Section.lines

/-- Lines of a section excluding header-keyword anchor lines. -/
def contentOf (ls : List LogicalLine) : List LogicalLine :=
  ls.filter (fun l => (anchorTag l).isNone)

/-- First parsable number among the tokens of a line. -/
def firstNumberIn (s : String) : Option ℚ :=
  ((tokenize s).filterMap parseQty).head?

/-- True when some token of the line, lowered and with a trailing colon
removed, is one of the keys. -/
def mentionsAny (keys : List String) (s : String) : Bool :=
  (tokenize (lowerStr s)).any (fun t =>
    keys.contains (if lastIs t ':' then String.mk t.data.dropLast else t))

/-- Number found on the first line mentioning one of the keys. -/
def findField (ts : List String) (keys : List String) : Option ℚ :=
  match ts.find? (mentionsAny keys) with
  | some line => firstNumberIn line
  | none => none

/-- Modelled from the spec: best-effort nutrition figures from the
NUTRITION section lines (section 3, ExtractedRecipe.nutrition). -/
def parseNutrition (ls : List LogicalLine) : Option Nutrition :=
  let ts := ls.map LogicalLine.text
  let cal := findField ts ["kcal", "kalorien", "calories"]
  let pro := findField ts ["eiweiß", "protein"]
  let cb := findField ts ["kohlenhydrate", "carbs", "carbohydrates"]
  let ft := findField ts ["fett", "fat"]
  if cal = none ∧ pro = none ∧ cb = none ∧ ft = none then none
  else some ⟨cal, pro, cb, ft⟩

/-- Title text assembled from the TITLE sections. -/
def recipeTitle (lines : List LogicalLine) : String :=
  joinSpace ((sectionLines (segmentSections lines) SectionTag.title).map LogicalLine.text)

/-- Parsed ingredients of the INGREDIENTS sections, anchors excluded. -/
def recipeIngredients (lines : List LogicalLine) : List ParsedIngredient :=
  (contentOf (sectionLines (segmentSections lines) SectionTag.ingredients)).map
    (fun l => parseIngredient l.text)

/-- Instruction steps of the INSTRUCTIONS sections, anchors excluded. -/
def recipeSteps (lines : List LogicalLine) : List InstructionStep :=
  splitSteps (contentOf (sectionLines (segmentSections lines) SectionTag.instructions))

/-- Nutrition figures of the NUTRITION sections. -/
def recipeNutrition (lines : List LogicalLine) : Option Nutrition :=
  parseNutrition (sectionLines (segmentSections lines) SectionTag.nutrition)

/-- Modelled from the spec: assemble the ExtractedRecipe from the
normalized lines — segment, parse each section, and record per-field
confidence, downgrading missing fields instead of failing (sections 4.6
and 7). -/
def assembleRecipe (lines : List LogicalLine) : ExtractedRecipe :=
  { title := recipeTitle lines, ingredients := recipeIngredients lines,
    instructions := recipeSteps lines, nutrition := recipeNutrition lines,
    confTitle := if recipeTitle lines = "" then Confidence.defaulted else Confidence.ok,
    confIngredients := if recipeIngredients lines = [] then Confidence.failed else Confidence.ok,
    confInstructions := if recipeSteps lines = [] then Confidence.failed else Confidence.ok,
    confNutrition := if recipeNutrition lines = none then Confidence.failed else Confidence.ok }

/-- Modelled from the spec: the Extraction Orchestrator — a Text
Extractor failure aborts with UnreadablePdf; otherwise every stage is
best-effort and a recipe is always assembled (section 4.6 contract). -/
def orchestrate (doc : RawDocument) : Except PipelineError ExtractedRecipe :=
  match textExtract doc with
  | Except.error e => Except.error e
  | Except.ok blocks => Except.ok (assembleRecipe (normalizeLines blocks))

/-- The normalized line sequence a document yields, empty on extraction
failure. -/
def pipelineLines (doc : RawDocument) : List LogicalLine :=
  match textExtract doc with
  | Except.ok blocks => normalizeLines blocks
  | Except.error _ => []

/-! ## RecipeUpload component (src/unnamed/part_007) -/

/-- A selected file as seen by the upload component: name, MIME type,
size in bytes. -/
structure FileInfo where
  name : String
  mime : String
  size : Nat
deriving DecidableEq, Repr

/-- The component state touched by handleFileChange: the pending file
list and the error notice. -/
structure UploadState where
  files : List FileInfo
  error : Option String
deriving DecidableEq, Repr

/-- The error notice set when non-PDF files are ignored. -/
def pdfOnlyErrMsg : String :=
  "Nur PDF-Dateien werden unterstützt. Nicht-PDF-Dateien wurden ignoriert."

/-- Embeds handleFileChange of RecipeUpload.js: keep only files whose
MIME type equals application/pdf; when some file was filtered out, set
the error notice; when at least one PDF remains, append the PDFs to the
pending list and clear the error notice (the later setError call wins
within the same event). -/
def handleFileChange (st : UploadState) (selected : List FileInfo) : UploadState :=
  let selectedFiles := selected.filter (fun f => f.mime = "application/pdf")
  let st1 :=
    if selectedFiles.length ≠ selected.length then
      { st with error := some pdfOnlyErrMsg }
    else st
  if 0 < selectedFiles.length then
    { st1 with files := st1.files ++ selectedFiles, error := none }
  else st1

/-- One entry of the uploadResults list built by handleUploadAll. -/
structure UploadResult where
  success : Bool
  filename : String
  payload : Option String
  errMsg : Option String
deriving DecidableEq, Repr

/-- Embeds uploadFile of RecipeUpload.js: post the file; on a response
return a success entry carrying the response data, and on a thrown error
catch it and return a failure entry — uploadFile itself never throws.
The server behavior is abstracted as a function from the file to either
response data or an error message. -/
def uploadFile (server : FileInfo → Except String String) (f : FileInfo) : UploadResult :=
  match server f with
  | Except.ok d => { success := true, filename := f.name, payload := some d, errMsg := none }
  | Except.error e => { success := false, filename := f.name, payload := none, errMsg := some e }

/-- Embeds handleUploadAll of RecipeUpload.js: with an empty selection it
only sets an error notice and produces no results (modelled as none);
otherwise it awaits uploadFile for each file in order, pushing one result
per file. -/
def handleUploadAll (server : FileInfo → Except String String)
    (files : List FileInfo) : Option (List UploadResult) :=
  if files = [] then none
  else some (files.map (uploadFile server))

/-- The extracted_data object of a successful upload response as consumed
by the results JSX. -/
structure ExtractedData where
  title : String
  ingredients : String
  instructions : String
deriving DecidableEq, Repr

/-- One uploadResults entry as consumed by the results JSX: either a
success carrying extracted data or a failure carrying an error text. -/
structure ServerResult where
  success : Bool
  filename : String
  data : ExtractedData
  errMsg : String
deriving DecidableEq, Repr

/-- What one result list item renders to. -/
inductive RenderedResult
  | shown (filename : String) (title : String) (ingredients : String)
      (instructions : String) (detailsHidden : Bool) (highlighted : List String)
  | failed (filename : String) (errMsg : String)
deriving DecidableEq, Repr

/-- Fields of a rendered entry carrying a low-confidence highlight. -/
def RenderedResult.highlightedFields : RenderedResult → List String
  | RenderedResult.shown _ _ _ _ _ h => h
  | RenderedResult.failed _ _ => []

/-- Embeds the uploadResults rendering of RecipeUpload.js: one list item
per result; a successful item shows the filename, the extracted title,
and — inside an initially hidden, toggleable details block — the
extracted ingredients and instructions verbatim.  The markup applies no
confidence-dependent styling, so the set of highlighted fields is always
empty; a failed item shows the error text. -/
def renderResult (r : ServerResult) : RenderedResult :=
  if r.success then
    RenderedResult.shown r.filename r.data.title r.data.ingredients
      r.data.instructions true []
  else RenderedResult.failed r.filename r.errMsg

/-- The whole uploadResults list, rendered. -/
def renderResults (rs : List ServerResult) : List RenderedResult :=
  rs.map renderResult

/-! ## Register component (src/Register.js) -/

/-- The registration form fields. -/
structure RegFormData where
  username : String
  email : String
  password : String
  confirmPassword : String
deriving DecidableEq, Repr

/-- The component state touched by handleSubmit: form data and the error
message. -/
structure RegState where
  formData : RegFormData
  error : String
deriving DecidableEq, Repr

/-- A network request the handler can issue. -/
inductive RegRequest
  | registerUser (username : String) (email : String) (password : String)
  | login (username : String) (password : String)
deriving DecidableEq, Repr

/-- The mismatch error message of Register.js. -/
def passwordMismatchMsg : String := "Die Passwörter stimmen nicht überein"

/-- The fallback error message of the catch block of Register.js. -/
def registerFallbackMsg : String := "Registrierung fehlgeschlagen"

/-- Embeds handleSubmit of Register.js: when password and
confirmPassword differ, set the error message and return without issuing
any request; otherwise post the registration, then on success post the
login, catching any failure into the error message (the server message
when present, the generic fallback otherwise).  The network is abstracted
as a function from a request to either response data or an optional
server error message.  Returns the new state, the requests issued in
order, and the logged-in user when the flow completed. -/
def handleSubmit (st : RegState) (net : RegRequest → Except (Option String) String) :
    RegState × List RegRequest × Option String :=
  if st.formData.password ≠ st.formData.confirmPassword then
    ({ st with error := passwordMismatchMsg }, [], none)
  else
    let regReq := RegRequest.registerUser st.formData.username st.formData.email
      st.formData.password
    match net regReq with
    | Except.error e => ({ st with error := e.getD registerFallbackMsg }, [regReq], none)
    | Except.ok _ =>
      let logReq := RegRequest.login st.formData.username st.formData.password
      match net logReq with
      | Except.error e =>
        ({ st with error := e.getD registerFallbackMsg }, [regReq, logReq], none)
      | Except.ok user => (st, [regReq, logReq], some user)

/-! ## Concrete inputs used in witnesses and counterexamples -/

/-- A byte stream that is not a readable PDF. -/
def unreadableDoc : RawDocument := [0, 1, 2]

/-- A small readable recipe document. -/
def sampleDoc : RawDocument :=
  [37, 80, 68, 70] ++
    "Apfelkuchen\nZutaten:\n200g Mehl\nZubereitung\nMehl verarbeiten.".data.map Char.toNat

/-- A PDF file as selected in the upload dialog. -/
def pdfFileA : FileInfo := ⟨"a.pdf", "application/pdf", 100⟩

/-- A non-PDF file as selected in the upload dialog. -/
def txtFileB : FileInfo := ⟨"b.txt", "text/plain", 50⟩

/-- A server that rejects exactly the file named a.pdf. -/
def demoServer : FileInfo → Except String String :=
  fun f => if f.name = "a.pdf" then Except.error "Upload fehlgeschlagen" else Except.ok "ok"

/-- A successful upload result whose extraction came back empty. -/
def lowConfResult : ServerResult :=
  { success := true, filename := "scan.pdf", data := ⟨"", "", ""⟩, errMsg := "" }

/-- A successful upload result with non-trivial extracted data. -/
def demoOkResult : ServerResult :=
  { success := true, filename := "ok.pdf", data := ⟨"Kuchen", "Mehl", "Backen"⟩,
    errMsg := "" }

/-- A registration form state whose two password fields differ. -/
def demoMismatchState : RegState :=
  { formData :=
      { username := "u", email := "u@example.com",
        password := "p1", confirmPassword := "p2" },
    error := "" }

/-- A network that would accept every request. -/
def demoNet : RegRequest → Except (Option String) String := fun _ => Except.ok "user"

/-! ## Support lemmas -/

lemma labelPass_length (ti : Option Nat) :
    ∀ (i : Nat) (cur : SectionTag) (ls : List LogicalLine),
      (labelPass ti i cur ls).length = ls.length := by
  intro i cur ls
  induction ls generalizing i cur with
  | nil => simp [labelPass]
  | cons l ls ih => cases h : anchorTag l <;> simp [labelPass, h, ih]

lemma structLabel_length :
    ∀ (s : StructState) (ps : List (SectionTag × LogicalLine)),
      (structLabel s ps).length = ps.length := by
  intro s ps
  induction ps generalizing s with
  | nil => simp [structLabel]
  | cons p ps ih =>
    obtain ⟨tag, l⟩ := p
    by_cases htag : tag ≠ SectionTag.unknown
    · simp [structLabel, htag, ih]
    · cases s <;> simp only [structLabel, if_neg htag] <;> (repeat' split) <;> simp [ih]

lemma segmentLabels_length (lines : List LogicalLine) :
    (segmentLabels lines).length = lines.length := by
  unfold segmentLabels
  split
  · exact labelPass_length _ _ _ _
  · rw [structLabel_length, List.length_zip, labelPass_length, min_self]

lemma groupPairs_flatten :
    ∀ ps : List (SectionTag × LogicalLine),
      (groupPairs ps).flatMap Section.lines = ps.map Prod.snd := by
  intro ps
  induction ps with
  | nil => simp [groupPairs]
  | cons p ps ih =>
    obtain ⟨t, l⟩ := p
    cases h : groupPairs ps with
    | nil =>
      have hsnd : ps.map Prod.snd = [] := by
        rw [← ih, h]
        simp
      simp [groupPairs, h, hsnd]
    | cons s ss =>
      rw [h] at ih
      by_cases hts : s.tag = t
      · simp [groupPairs, h, hts, ← ih]
      · simp [groupPairs, h, hts, ← ih]

lemma enumFrom_map_succ (l : List String) :
    ∀ k, (List.enumFrom k l).map (fun p => p.1 + 1) = List.range' (k + 1) l.length := by
  induction l with
  | nil => intro k; simp
  | cons t ts ih => intro k; simp [List.enumFrom, List.range'_succ, ih]

lemma trim_ne_of_ne (s : String) (h : trimS s ≠ "") : s ≠ "" := by
  intro h0
  apply h
  rw [h0]
  rfl

/-! ## Claims -/

/-- C1: the Section Segmenter's output partitions the LogicalLine
sequence — concatenating all section line runs in document order
reproduces the full input sequence, so every line belongs to exactly one
section, sections are contiguous, and there are no overlaps and no
gaps. -/
theorem sections_partition_lines (lines : List LogicalLine) :
    (segmentSections lines).flatMap Section.lines = lines := by
  unfold segmentSections
  rw [groupPairs_flatten, List.map_snd_zip _ _ (le_of_eq (segmentLabels_length lines).symm)]

/-- C2: the Ingredient Line Parser is total — it returns exactly one
ParsedIngredient for every line, and for every non-blank input line the
resulting name is non-empty (worst case the name is the original line
text with amount absent). -/
theorem parseIngredient_name_nonempty (line : String) (h : trimS line ≠ "") :
    (parseIngredient line).name ≠ "" := by
  have hne : line ≠ "" := trim_ne_of_ne line h
  unfold parseIngredient
  split
  · exact hne
  · next hc => exact hc

theorem parseIngredient_name_nonempty_witness :
    trimS "Salz nach Geschmack" ≠ "" ∧
      (parseIngredient "Salz nach Geschmack").name ≠ "" :=
  ⟨by decide, parseIngredient_name_nonempty "Salz nach Geschmack" (by decide)⟩

/-- C3: for every output of the Instruction Step Splitter, the sequence
of step indices starts at 1 and increases by exactly 1 with no gaps,
whether or not the input lines carried explicit ordinal markers. -/
theorem splitSteps_indices_contiguous (lines : List LogicalLine) :
    (splitSteps lines).map InstructionStep.index
      = List.range' 1 (splitSteps lines).length := by
  unfold splitSteps
  rw [List.map_map, List.length_map, List.enum_length]
  exact enumFrom_map_succ (stepTexts lines) 0

/-- C6: the Ingredient Line Parser maps the line 1/2 TL Salz (fein) to
amount 0.5, canonical teaspoon unit TL, name Salz, and note fein — the
simple fraction is parsed as a decimal, the unit is canonicalized, and
the parenthesized text moves from the name to the note. -/
theorem parseIngredient_scenarioB :
    parseIngredient "1/2 TL Salz (fein)" =
      { amount := some (1 / 2), amountRange := none, unit := some "TL",
        name := "Salz", note := some "fein", isHeader := false } := by
  have h2 : (1 / 2 : ℚ) = mkRat 1 2 := by
    rw [Rat.mkRat_eq_div]
    norm_num
  rw [h2]
  decide

/-- C4: the Extraction Orchestrator raises across the core boundary
exactly when the Text Extractor fails with UnreadablePdf, in which case
no partial ExtractedRecipe exists; for every other shortfall it returns a
successful ExtractedRecipe with the affected field's confidence
downgraded. -/
theorem orchestrate_error_policy (doc : RawDocument) :
    (∀ e, orchestrate doc = Except.error e ↔ textExtract doc = Except.error e) ∧
    (∀ e, orchestrate doc = Except.error e → e = PipelineError.unreadablePdf) ∧
    (∀ bs, textExtract doc = Except.ok bs →
      ∃ r, orchestrate doc = Except.ok r ∧
        (r.title = "" → r.confTitle = Confidence.defaulted) ∧
        (r.ingredients = [] → r.confIngredients = Confidence.failed) ∧
        (r.instructions = [] → r.confInstructions = Confidence.failed) ∧
        (r.nutrition = none → r.confNutrition = Confidence.failed)) := by
  refine ⟨?_, ?_, ?_⟩
  · intro e
    unfold orchestrate
    cases h : textExtract doc <;> simp
  · intro e _
    cases e
    rfl
  · intro bs h
    refine ⟨assembleRecipe (normalizeLines bs), ?_, ?_, ?_, ?_, ?_⟩
    · unfold orchestrate
      rw [h]
    · intro h0
      simp only [assembleRecipe] at h0 ⊢
      rw [if_pos h0]
    · intro h0
      simp only [assembleRecipe] at h0 ⊢
      rw [if_pos h0]
    · intro h0
      simp only [assembleRecipe] at h0 ⊢
      rw [if_pos h0]
    · intro h0
      simp only [assembleRecipe] at h0 ⊢
      rw [if_pos h0]

theorem orchestrate_error_policy_witness :
    orchestrate unreadableDoc = Except.error PipelineError.unreadablePdf :=
  ((orchestrate_error_policy unreadableDoc).1 PipelineError.unreadablePdf).mpr rfl

/-- C5: extraction is deterministic — on equal byte streams the pipeline
returns equal ExtractedRecipe values, and section segmentation produces
the same partition; the embedding is a pure function of the input bytes,
with no randomness and no clock dependence. -/
theorem extraction_deterministic (b1 b2 : RawDocument) (h : b1 = b2) :
    orchestrate b1 = orchestrate b2 ∧
    segmentSections (pipelineLines b1) = segmentSections (pipelineLines b2) := by
  subst h
  exact ⟨rfl, rfl⟩

theorem extraction_deterministic_witness :
    orchestrate sampleDoc = orchestrate sampleDoc ∧
    segmentSections (pipelineLines sampleDoc) = segmentSections (pipelineLines sampleDoc) :=
  extraction_deterministic sampleDoc sampleDoc rfl

/-- C7 counterexample: a mixed selection of one PDF and one non-PDF file —
the non-PDF file is ignored, yet the resulting error notice is cleared
(the setError of the PDF branch wins), refuting the claim that an error
notice is shown whenever at least one file was ignored. -/
theorem handleFileChange_mixed_counterexample :
    txtFileB.mime ≠ "application/pdf" ∧
    (handleFileChange ⟨[], none⟩ [pdfFileA, txtFileB]).files = [pdfFileA] ∧
    (handleFileChange ⟨[], none⟩ [pdfFileA, txtFileB]).error = none := by
  decide

/-- C7 amended: exactly the files of MIME type application/pdf are
appended to the upload list in selection order and non-PDF files are
never added; the error notice is shown only when at least one file was
ignored and no PDF was selected — when at least one PDF is selected the
error notice is cleared even if other files were ignored, and an empty
selection leaves the state unchanged. -/
theorem handleFileChange_amended (st : UploadState) (selected : List FileInfo) :
    (handleFileChange st selected).files
      = st.files ++ selected.filter (fun f => f.mime = "application/pdf") ∧
    (selected.filter (fun f => f.mime = "application/pdf") ≠ [] →
      (handleFileChange st selected).error = none) ∧
    (selected.filter (fun f => f.mime = "application/pdf") = [] → selected ≠ [] →
      (handleFileChange st selected).error = some pdfOnlyErrMsg) ∧
    (selected = [] → handleFileChange st selected = st) := by
  obtain ⟨fs, er⟩ := st
  by_cases hps : selected.filter (fun f => f.mime = "application/pdf") = []
  · by_cases hsel : selected = []
    · subst hsel
      refine ⟨?_, ?_, ?_, ?_⟩ <;> simp [handleFileChange]
    · have h0 : (selected.filter (fun f => f.mime = "application/pdf")).length = 0 := by
        simp [hps]
      have h1 : selected.length ≠ 0 := by
        simpa using hsel
      have h2 : ¬(0 = selected.length) := fun hc => h1 hc.symm
      refine ⟨?_, ?_, ?_, ?_⟩
      · simp [handleFileChange, h0, h1, h2, hps]
      · intro hc
        exact absurd hps hc
      · intro _ _
        simp [handleFileChange, h0, h1, h2]
      · intro hc
        exact absurd hc hsel
  · have hpos : 0 < (selected.filter (fun f => f.mime = "application/pdf")).length :=
      List.length_pos.mpr hps
    refine ⟨?_, ?_, ?_, ?_⟩
    · simp [handleFileChange, hpos, apply_ite]
    · intro _
      simp [handleFileChange, hpos]
    · intro hc
      exact absurd hc hps
    · intro hsel
      subst hsel
      simp at hps

theorem handleFileChange_amended_witness :
    (handleFileChange ⟨[], none⟩ [txtFileB, pdfFileA]).error = none :=
  (handleFileChange_amended ⟨[], none⟩ [txtFileB, pdfFileA]).2.1 (by decide)

/-- C8: batch upload processes the selected files sequentially and
produces exactly one result entry per selected file in selection order;
each entry is uploadFile applied to that file alone, so one file's
failure (a success=false entry, never an exception) cannot abort or alter
the processing of any other file. -/
theorem handleUploadAll_per_file (server : FileInfo → Except String String)
    (files : List FileInfo) (h : files ≠ []) :
    ∃ rs, handleUploadAll server files = some rs ∧
      rs.length = files.length ∧
      ∀ (i : Nat) (hi : i < files.length) (hr : i < rs.length),
        rs.get ⟨i, hr⟩ = uploadFile server (files.get ⟨i, hi⟩) := by
  refine ⟨files.map (uploadFile server), ?_, by simp, ?_⟩
  · unfold handleUploadAll
    rw [if_neg h]
  · intro i hi hr
    simp [List.get_eq_getElem, List.getElem_map]

theorem handleUploadAll_per_file_witness :
    handleUploadAll demoServer [pdfFileA, txtFileB] ≠ none := by
  obtain ⟨rs, hrs, -, -⟩ :=
    handleUploadAll_per_file demoServer [pdfFileA, txtFileB] (by decide)
  simp [hrs]

/-- C9 counterexample: a successful result whose extracted title is empty
— a plainly low-confidence extraction — renders with no highlighted
fields at all, refuting the claim that the upload UI highlights
low-confidence fields for manual edit. -/
theorem render_no_highlight_counterexample :
    lowConfResult.success = true ∧ lowConfResult.data.title = "" ∧
    (renderResult lowConfResult).highlightedFields = [] := by
  decide

/-- C9 amended: the upload UI renders one entry per reported result and
never blocks on imperfect extraction — every successful entry shows the
extracted title and carries the extracted ingredients and instructions
verbatim in an initially hidden, toggleable details block — but it
performs no confidence-based highlighting and offers no manual-edit
affordance. -/
theorem render_shows_extracted (rs : List ServerResult) :
    (renderResults rs).length = rs.length ∧
    (∀ r ∈ rs, r.success = true →
      renderResult r = RenderedResult.shown r.filename r.data.title r.data.ingredients
        r.data.instructions true []) := by
  refine ⟨by simp [renderResults], ?_⟩
  intro r _ hs
  unfold renderResult
  rw [if_pos hs]

theorem render_shows_extracted_witness :
    renderResult demoOkResult
      = RenderedResult.shown "ok.pdf" "Kuchen" "Mehl" "Backen" true [] :=
  (render_shows_extracted [demoOkResult]).2 demoOkResult (by simp) (by decide)

/-- C10: when password and confirmPassword differ, handleSubmit issues no
network request at all, sets the mismatch error message, and leaves the
form data otherwise unchanged; a registration request is only ever sent
when the two passwords are equal. -/
theorem register_mismatch_guard (st : RegState)
    (net : RegRequest → Except (Option String) String) :
    (st.formData.password ≠ st.formData.confirmPassword →
      handleSubmit st net = ({ st with error := passwordMismatchMsg }, [], none)) ∧
    ((handleSubmit st net).2.1 ≠ [] →
      st.formData.password = st.formData.confirmPassword) := by
  constructor
  · intro h
    unfold handleSubmit
    rw [if_pos h]
  · intro h
    by_contra hne
    apply h
    show (handleSubmit st net).2.1 = []
    unfold handleSubmit
    rw [if_pos hne]

theorem register_mismatch_guard_witness :
    handleSubmit demoMismatchState demoNet
      = ({ demoMismatchState with error := passwordMismatchMsg }, [], none) :=
  (register_mismatch_guard demoMismatchState demoNet).1 (by decide)

end RecipeManager
